import Mathlib

/-!
Verification of the TaskFlow request-handling layer (Express + Mongoose
backend in the repository). The database collections are modelled as Lean
lists, each Mongo document as a structure, and every route handler as a pure
function from the application state (plus the authenticated caller id and the
parsed request body) to an HTTP outcome and a successor state.

Conventions of the embedding:
  - Mongo ObjectIds are `Nat`; instants (`Date`) are `Int` (milliseconds).
  - `findOne` / `findById` is `List.find?` (first match);
    `findOneAndUpdate` updates the first matching element (`updateFirst`);
    `findOneAndDelete` erases the first matching element (`List.eraseP`).
  - Mongoose casts a plain update object into a `$set` of exactly the fields
    present in the request body, so an update body is a structure of `Option`
    fields: `some v` means the field was submitted, `none` means absent.
  - JavaScript string truthiness (`config.botToken && config.chatId`) is
    modelled by comparison with the empty string, which is the falsy case.
  - The outbound Telegram HTTP call is abstracted by a `TgOutcome` value: the
    transport either succeeds, or fails with an optional error payload
    description plus a transport message (`error.response?.data?.description`
    and `error.message` in the source).
  - bcrypt hashing and comparison are abstracted by function parameters
    (`hash`, `verify`): the handlers only pipe values through them.
-/

namespace TaskFlow

/-- A `User` document (UserSchema in the source). -/
structure User where
  id : Nat
  email : String
  password : String
  name : String
  role : String
  createdAt : Int
deriving DecidableEq

/-- An `Employee` document (EmployeeSchema): `userId` is the owner. -/
structure Employee where
  id : Nat
  userId : Nat
  name : String
  position : Option String
  telegramTag : Option String
  createdAt : Int
deriving DecidableEq

/-- A task-update request body: `PUT /api/tasks/:id` merges exactly the
submitted fields (`$set` of `req.body`), so every field is optional.
`userId` is listed because the handler applies the body with no whitelist. -/
structure TaskUpdate where
  title : Option String
  description : Option String
  employeeId : Option Nat
  deadline : Option Int
  priority : Option String
  status : Option String
  result : Option String
  completedAt : Option Int
  userId : Option Nat
deriving DecidableEq

/-- One entry of a task's `history` array: `{ timestamp, action, changes }`,
where `changes` is the raw submitted body. -/
structure HistoryEntry where
  timestamp : Int
  action : String
  changes : TaskUpdate
deriving DecidableEq

/-- A `Task` document (TaskSchema): `userId` is the owner, `employeeId` the
assignee reference. -/
structure Task where
  id : Nat
  userId : Nat
  title : String
  description : Option String
  employeeId : Nat
  deadline : Int
  priority : String
  status : String
  result : Option String
  completedAt : Option Int
  history : List HistoryEntry
  createdAt : Int
  updatedAt : Int
deriving DecidableEq

/-- A `Config` document (ConfigSchema): per-owner Telegram credentials;
empty string stands for an absent/blank (falsy) credential. -/
structure Config where
  userId : Nat
  botToken : String
  chatId : String
deriving DecidableEq

/-- The whole database: one list per collection. -/
structure AppState where
  users : List User
  employees : List Employee
  tasks : List Task
  configs : List Config
deriving DecidableEq

/-- Outcome of the outbound Telegram HTTP call, as far as the handler can
observe it: success, or an axios error carrying an optional response-payload
`description` and a transport `message`. -/
inductive TgOutcome
  | ok
  | failure (description : Option String) (message : String)
deriving DecidableEq

/-- The structured result `sendTelegramNotification` always returns:
`{ success: true }` or `{ success: false, error }`. -/
structure TgResult where
  success : Bool
  error : Option String
deriving DecidableEq

/-- `sendTelegramNotification`: wraps the outbound call in try/catch and
returns a structured result; on failure the reported reason is
`error.response?.data?.description || error.message` (JS `||`, so an empty
description falls through to the transport message). -/
def sendTelegramNotification : TgOutcome → TgResult
  | .ok => ⟨true, none⟩
  | .failure description message =>
      ⟨false, some (match description with
        | some d => if d == "" then message else d
        | none => message)⟩

/-- `Config.findOne({ userId: req.user._id })`. -/
def findConfig (s : AppState) (caller : Nat) : Option Config :=
  s.configs.find? (fun c => c.userId == caller)

/-- The guard `config && config.botToken && config.chatId` of the task
handlers: the caller's config exists and both credentials are truthy. -/
def configCredsPresent (s : AppState) (caller : Nat) : Bool :=
  match findConfig s caller with
  | some c => c.botToken != "" && c.chatId != ""
  | none => false

/-- Updates the first element satisfying `p` by `f`, leaving the rest alone:
the list-model of Mongo `findOneAndUpdate` on the filtered collection. -/
def updateFirst (p : α → Bool) (f : α → α) : List α → List α
  | [] => []
  | x :: xs => if p x then f x :: xs else x :: updateFirst p f xs

/-- Insertion step for sorting by a key, descending. -/
def insertDesc (key : α → Int) (a : α) : List α → List α
  | [] => [a]
  | x :: xs => if key a ≥ key x then a :: x :: xs else x :: insertDesc key a xs

/-- Sorting by a key, descending: the model of Mongo `sort({ key: -1 })`. -/
def sortDesc (key : α → Int) : List α → List α
  | [] => []
  | x :: xs => insertDesc key x (sortDesc key xs)

/-- Result of `POST /api/auth/register`. -/
inductive RegisterResult
  | conflict (status : Nat) (error : String)
  | created (status : Nat) (tokenUserId : Nat) (tokenExpiresDays : Nat)
      (viewId : Nat) (viewEmail : String) (viewName : String) (viewRole : String)
deriving DecidableEq

/-- `POST /api/auth/register`: 400 if the email already exists, else store the
bcrypt hash, create the user with role `manager`, sign a 30-day token whose
payload is the new user id, and answer 201 with the public view
(id/email/name/role; the password is not part of the view). -/
def register (s : AppState) (email password name : String)
    (hash : String → String) (newId : Nat) (now : Int) :
    RegisterResult × AppState :=
  match s.users.find? (fun u => u.email == email) with
  | some _ => (.conflict 400 "Email уже зарегистрирован", s)
  | none =>
      let user : User :=
        { id := newId, email := email, password := hash password,
          name := name, role := "manager", createdAt := now }
      (.created 201 newId 30 newId email name "manager",
       { s with users := s.users ++ [user] })

/-- Result of `POST /api/auth/login`. -/
inductive LoginResult
  | unauthorized (status : Nat) (error : String)
  | ok (tokenUserId : Nat) (tokenExpiresDays : Nat)
      (viewId : Nat) (viewEmail : String) (viewName : String) (viewRole : String)
deriving DecidableEq

/-- `POST /api/auth/login`: 401 with one generic message when the email is
unknown or when `bcrypt.compare` fails; else a fresh 30-day token and the
public user view. -/
def login (s : AppState) (email password : String)
    (verify : String → String → Bool) : LoginResult :=
  match s.users.find? (fun u => u.email == email) with
  | none => .unauthorized 401 "Неверный email или пароль"
  | some u =>
      if verify password u.password then
        .ok u.id 30 u.id u.email u.name u.role
      else
        .unauthorized 401 "Неверный email или пароль"

/-- `GET /api/employees`: the caller's employees, newest first. -/
def listEmployees (s : AppState) (caller : Nat) : List Employee :=
  sortDesc (fun e => e.createdAt) (s.employees.filter (fun e => e.userId == caller))

/-- Body of `POST /api/employees`. `userId` may appear in the body, but the
handler builds `{ ...req.body, userId: req.user._id }`, and in a JS object
literal the later `userId` key wins, so the submitted value is discarded. -/
structure EmployeeBody where
  name : String
  position : Option String
  telegramTag : Option String
  userId : Option Nat
deriving DecidableEq

/-- `POST /api/employees`: persist the body with the owner forced to the
caller (spread order: the handler's own `userId` key overrides the body's). -/
def createEmployee (s : AppState) (caller : Nat) (b : EmployeeBody)
    (newId : Nat) (now : Int) : Nat × Employee × AppState :=
  let e : Employee :=
    { id := newId, userId := caller, name := b.name,
      position := b.position, telegramTag := b.telegramTag, createdAt := now }
  (201, e, { s with employees := s.employees ++ [e] })

/-- Body of `PUT /api/employees/:id`: every field optional, no whitelist. -/
structure EmployeeUpdate where
  name : Option String
  position : Option String
  telegramTag : Option String
  userId : Option Nat
deriving DecidableEq

/-- The `$set` merge a task-less `findOneAndUpdate(filter, req.body)` does:
each submitted field replaces the stored one, absent fields are kept. -/
def applyEmployeeUpdate (b : EmployeeUpdate) (e : Employee) : Employee :=
  { id := e.id,
    userId := b.userId.getD e.userId,
    name := b.name.getD e.name,
    position := Option.or b.position e.position,
    telegramTag := Option.or b.telegramTag e.telegramTag,
    createdAt := e.createdAt }

/-- `PUT /api/employees/:id`: scoped `findOneAndUpdate` with `{ new: true }`;
404 when no document matches both the id and the caller as owner. -/
def updateEmployee (s : AppState) (caller id : Nat) (b : EmployeeUpdate) :
    Nat × Option Employee × AppState :=
  match s.employees.find? (fun e => e.id == id && e.userId == caller) with
  | none => (404, none, s)
  | some e0 =>
      let employees2 :=
        updateFirst (fun e => e.id == id && e.userId == caller)
          (applyEmployeeUpdate b) s.employees
      (200, some (applyEmployeeUpdate b e0), { s with employees := employees2 })

/-- Result of `DELETE /api/employees/:id`. -/
inductive DeleteEmployeeResult
  | conflict (status : Nat) (error : String)
  | notFound (status : Nat) (error : String)
  | deleted (status : Nat) (message : String)
deriving DecidableEq

/-- `DELETE /api/employees/:id`: first `countDocuments` of the caller's tasks
referencing this employee — any such task means 400; else a scoped
`findOneAndDelete`, 404 when nothing matches. -/
def deleteEmployee (s : AppState) (caller id : Nat) :
    DeleteEmployeeResult × AppState :=
  let taskCount :=
    (s.tasks.filter (fun t => t.userId == caller && t.employeeId == id)).length
  if taskCount > 0 then
    (.conflict 400 "Нельзя удалить сотрудника с активными задачами", s)
  else
    match s.employees.find? (fun e => e.id == id && e.userId == caller) with
    | none => (.notFound 404 "Сотрудник не найден", s)
    | some _ =>
        let employees2 :=
          s.employees.eraseP (fun e => e.id == id && e.userId == caller)
        (.deleted 200 "Сотрудник удалён", { s with employees := employees2 })

/-- A task as `populate('employeeId')` returns it: the document plus the
referenced employee resolved by id alone (populate follows the reference and
is not scoped to the caller; an unresolvable reference yields null). -/
structure TaskWithEmployee where
  task : Task
  employee : Option Employee
deriving DecidableEq

/-- Resolution of the `employeeId` reference done by `populate`. -/
def populateEmployee (s : AppState) (t : Task) : TaskWithEmployee :=
  ⟨t, s.employees.find? (fun e => e.id == t.employeeId)⟩

/-- `GET /api/tasks`: the caller's tasks, assignee embedded, newest first. -/
def listTasks (s : AppState) (caller : Nat) : List TaskWithEmployee :=
  (sortDesc (fun t => t.createdAt)
    (s.tasks.filter (fun t => t.userId == caller))).map (populateEmployee s)

/-- Body of `POST /api/tasks`. `userId` and `history` may appear, but the
handler builds `{ ...req.body, userId: req.user._id, history: [] }`: the two
later keys win, so both submitted values are discarded. -/
structure TaskBody where
  title : String
  description : Option String
  employeeId : Nat
  deadline : Int
  priority : Option String
  status : Option String
  result : Option String
  userId : Option Nat
  history : Option (List HistoryEntry)
deriving DecidableEq

/-- Outcome of `POST /api/tasks`: HTTP status, the document as persisted by
`save` (the response body carries it only on 201; on the 500 crash path the
document is stored but the response is an error object), how many
notification attempts were made, the structured result of the attempt (if
any), and the successor state. -/
structure CreateTaskOutcome where
  status : Nat
  task : Task
  notifications : Nat
  notifResult : Option TgResult
  state : AppState
deriving DecidableEq

/-- `POST /api/tasks`: persist with owner forced to the caller and an empty
history (spread order), then send the new-task notification when the caller's
config exists and both credentials are truthy. Inside that guard the handler
dereferences the populated assignee (`employee.telegramTag`) to build the
message: when the `employeeId` reference resolves to no employee, populate
yields null, the dereference throws, and the catch answers 500 — after the
save, with no send attempted. `o` is the transport outcome a send would
observe; its result is dropped by the handler. -/
def createTask (s : AppState) (caller : Nat) (b : TaskBody)
    (newId : Nat) (now : Int) (o : TgOutcome) : CreateTaskOutcome :=
  let task : Task :=
    { id := newId, userId := caller, title := b.title,
      description := b.description, employeeId := b.employeeId,
      deadline := b.deadline, priority := b.priority.getD "medium",
      status := b.status.getD "new", result := b.result, completedAt := none,
      history := [], createdAt := now, updatedAt := now }
  let s2 := { s with tasks := s.tasks ++ [task] }
  if configCredsPresent s caller then
    if (s.employees.find? (fun e => e.id == task.employeeId)).isSome then
      ⟨201, task, 1, some (sendTelegramNotification o), s2⟩
    else ⟨500, task, 0, none, s2⟩
  else ⟨201, task, 0, none, s2⟩

/-- The update `PUT /api/tasks/:id` performs on the matched document:
`$set` of the submitted fields plus `updatedAt`, and `$push` of one history
entry `{ timestamp: now, action: "updated", changes: req.body }`. -/
def applyTaskUpdate (b : TaskUpdate) (now : Int) (t : Task) : Task :=
  { id := t.id,
    userId := b.userId.getD t.userId,
    title := b.title.getD t.title,
    description := Option.or b.description t.description,
    employeeId := b.employeeId.getD t.employeeId,
    deadline := b.deadline.getD t.deadline,
    priority := b.priority.getD t.priority,
    status := b.status.getD t.status,
    result := Option.or b.result t.result,
    completedAt := Option.or b.completedAt t.completedAt,
    history := t.history ++ [⟨now, "updated", b⟩],
    createdAt := t.createdAt,
    updatedAt := now }

/-- Outcome of `PUT /api/tasks/:id`: `task` is the document as persisted by
`findOneAndUpdate` (`none` only on 404; on the 500 crash path the merged
document is already stored but the response carries an error object). -/
structure UpdateTaskOutcome where
  status : Nat
  task : Option Task
  notifications : Nat
  notifResult : Option TgResult
  state : AppState
deriving DecidableEq

/-- `PUT /api/tasks/:id`: scoped `findOne` (404 when absent), then a scoped
`findOneAndUpdate` that merges the body and pushes one history entry; the
completion-notification block runs when the submitted status is `completed`
and the prior status was not, and inside it, when the caller's config holds
truthy credentials, the handler dereferences the populated assignee to build
the message: an unresolvable `employeeId` reference makes populate yield
null, the dereference throw, and the catch answer 500 — after the document
was stored, with no send attempted. -/
def updateTask (s : AppState) (caller id : Nat) (b : TaskUpdate)
    (now : Int) (o : TgOutcome) : UpdateTaskOutcome :=
  match s.tasks.find? (fun t => t.id == id && t.userId == caller) with
  | none => ⟨404, none, 0, none, s⟩
  | some oldTask =>
      let newTask := applyTaskUpdate b now oldTask
      let tasks2 :=
        updateFirst (fun t => t.id == id && t.userId == caller)
          (applyTaskUpdate b now) s.tasks
      let s2 := { s with tasks := tasks2 }
      if b.status == some "completed" && oldTask.status != "completed" then
        if configCredsPresent s caller then
          if (s.employees.find? (fun e => e.id == newTask.employeeId)).isSome then
            ⟨200, some newTask, 1, some (sendTelegramNotification o), s2⟩
          else ⟨500, some newTask, 0, none, s2⟩
        else ⟨200, some newTask, 0, none, s2⟩
      else ⟨200, some newTask, 0, none, s2⟩

/-- `DELETE /api/tasks/:id`: scoped `findOneAndDelete`, 404 when absent. -/
def deleteTask (s : AppState) (caller id : Nat) : Nat × AppState :=
  match s.tasks.find? (fun t => t.id == id && t.userId == caller) with
  | none => (404, s)
  | some _ =>
      let tasks2 := s.tasks.eraseP (fun t => t.id == id && t.userId == caller)
      (200, { s with tasks := tasks2 })

/-- `GET /api/config`: the caller's config, lazily created blank. -/
def getConfig (s : AppState) (caller : Nat) : Config × AppState :=
  match findConfig s caller with
  | some c => (c, s)
  | none =>
      let c : Config := { userId := caller, botToken := "", chatId := "" }
      (c, { s with configs := s.configs ++ [c] })

/-- Body of `PUT /api/config`. In the create branch the handler builds
`new Config({ userId: req.user._id, ...req.body })`: here the body is spread
after the owner key, so a submitted `userId` would override it. -/
structure ConfigBody where
  botToken : String
  chatId : String
  userId : Option Nat
deriving DecidableEq

/-- `PUT /api/config`: update the caller's config in place, or create one
from the body when none exists yet. -/
def configUpdate (s : AppState) (caller : Nat) (b : ConfigBody) :
    Config × AppState :=
  match findConfig s caller with
  | none =>
      let c : Config :=
        { userId := b.userId.getD caller, botToken := b.botToken, chatId := b.chatId }
      (c, { s with configs := s.configs ++ [c] })
  | some c0 =>
      let configs2 :=
        updateFirst (fun c => c.userId == caller)
          (fun c => { c with botToken := b.botToken, chatId := b.chatId })
          s.configs
      ({ c0 with botToken := b.botToken, chatId := b.chatId },
       { s with configs := configs2 })

/-- The `GET /api/stats` response. -/
structure Stats where
  total : Nat
  new : Nat
  inProgress : Nat
  completed : Nat
  overdue : Nat
deriving DecidableEq

/-- `GET /api/stats`: counts over the caller's tasks, `overdue` being the
non-completed tasks whose deadline is strictly before the current instant. -/
def getStats (s : AppState) (caller : Nat) (now : Int) : Stats :=
  let tasks := s.tasks.filter (fun t => t.userId == caller)
  let overdue :=
    (tasks.filter (fun t => t.status != "completed" && decide (t.deadline < now))).length
  { total := tasks.length,
    new := (tasks.filter (fun t => t.status == "new")).length,
    inProgress := (tasks.filter (fun t => t.status == "in_progress")).length,
    completed := (tasks.filter (fun t => t.status == "completed")).length,
    overdue := overdue }

/-- Folding a sequence of update bodies (each with its instant) over one task
document: the per-document effect of N consecutive successful updates. -/
def applyTaskUpdates (t : Task) (bs : List (TaskUpdate × Int)) : Task :=
  bs.foldl (fun acc bn => applyTaskUpdate bn.1 bn.2 acc) t

/-! Concrete sample data, used to evaluate the handlers at explicit inputs. -/

/-- A task-update body with no field submitted. -/
def emptyTaskUpdate : TaskUpdate :=
  ⟨none, none, none, none, none, none, none, none, none⟩

/-- An employee-update body with no field submitted. -/
def emptyEmployeeUpdate : EmployeeUpdate := ⟨none, none, none, none⟩

/-- A task-update body that only moves the status to completed. -/
def exCompleteBody : TaskUpdate :=
  ⟨none, none, none, none, none, some "completed", none, none, none⟩

/-- An employee-update body that submits an owner field. -/
def exReassignEmp : EmployeeUpdate := ⟨none, none, none, some 2⟩

/-- A task-update body that submits an owner field. -/
def exReassignTask : TaskUpdate :=
  ⟨none, none, none, none, none, none, none, none, some 2⟩

/-- Sample user with id 1. -/
def exUser1 : User := ⟨1, "a@example.com", "hashA", "Alice", "manager", 0⟩

/-- Sample user with id 2 (a second tenant). -/
def exUser2 : User := ⟨2, "b@example.com", "hashB", "Bob", "manager", 0⟩

/-- Employee 10, owned by user 1. -/
def exEmp10 : Employee := ⟨10, 1, "Emp Ten", none, none, 0⟩

/-- Employee 11, owned by user 2. -/
def exEmp11 : Employee := ⟨11, 2, "Emp Eleven", none, none, 0⟩

/-- Employee 12, owned by user 1, referenced by no task. -/
def exEmp12 : Employee := ⟨12, 1, "Emp Twelve", none, none, 0⟩

/-- Task 20, owned by user 1, assigned to employee 10, status new. -/
def exTask20 : Task :=
  ⟨20, 1, "T20", none, 10, 100, "medium", "new", none, none, [], 0, 0⟩

/-- Task 21, owned by user 2, assigned to employee 11. -/
def exTask21 : Task :=
  ⟨21, 2, "T21", none, 11, 100, "medium", "new", none, none, [], 0, 0⟩

/-- Config of user 1, with both credentials present. -/
def exCfg1 : Config := ⟨1, "token-1", "chat-1"⟩

/-- Config of user 2, with blank credentials. -/
def exCfg2 : Config := ⟨2, "", ""⟩

/-- A two-tenant sample state. -/
def exState : AppState :=
  ⟨[exUser1, exUser2], [exEmp10, exEmp11, exEmp12], [exTask20, exTask21],
   [exCfg1, exCfg2]⟩

/-- A task owned by user 1 whose assignee reference points at employee 11,
which belongs to user 2: nothing in the create path validates that the
referenced employee belongs to the caller. -/
def exCrossTask : Task :=
  ⟨22, 1, "T22", none, 11, 100, "medium", "new", none, none, [], 5, 5⟩

/-- State exhibiting a cross-tenant assignee reference. -/
def exCrossState : AppState := ⟨[exUser1, exUser2], [exEmp11], [exCrossTask], []⟩

/-! Helper lemmas about the list primitives of the embedding. -/

/-- Membership in `insertDesc`. -/
theorem mem_insertDesc {key : α → Int} {a x : α} :
    ∀ {l : List α}, x ∈ insertDesc key a l ↔ x = a ∨ x ∈ l
  | [] => by simp [insertDesc]
  | y :: ys => by
    by_cases h : key a ≥ key y
    · simp [insertDesc, h]
    · simp only [insertDesc, if_neg h, List.mem_cons, mem_insertDesc (l := ys)]
      tauto

/-- `sortDesc` permutes membership. -/
theorem mem_sortDesc {key : α → Int} {x : α} :
    ∀ {l : List α}, x ∈ sortDesc key l ↔ x ∈ l
  | [] => Iff.rfl
  | y :: ys => by
    simp only [sortDesc, mem_insertDesc, List.mem_cons, mem_sortDesc (l := ys)]

/-- An element rejected by the filter survives `updateFirst` untouched. -/
theorem mem_updateFirst_of_neg {p : α → Bool} {f : α → α} {a : α}
    (hpa : p a = false) : ∀ {l : List α}, a ∈ l → a ∈ updateFirst p f l
  | [], h => by cases h
  | x :: xs, h => by
    rcases List.mem_cons.mp h with rfl | hmem
    · simp [updateFirst, hpa]
    · by_cases hx : p x
      · simp [updateFirst, hx, List.mem_cons, hmem]
      · simp only [updateFirst, if_neg hx, List.mem_cons]
        exact Or.inr (mem_updateFirst_of_neg hpa hmem)

/-- Every element of `updateFirst p f l` is an original element or the image
under `f` of an original element satisfying `p`. -/
theorem mem_updateFirst {p : α → Bool} {f : α → α} {a : α} :
    ∀ {l : List α}, a ∈ updateFirst p f l → a ∈ l ∨ ∃ b ∈ l, p b ∧ a = f b
  | [], h => by cases h
  | x :: xs, h => by
    by_cases hx : p x
    · rcases List.mem_cons.mp (by simpa [updateFirst, hx] using h) with rfl | hmem
      · exact Or.inr ⟨x, List.mem_cons_self x xs, hx, rfl⟩
      · exact Or.inl (List.mem_cons_of_mem x hmem)
    · rcases List.mem_cons.mp (by simpa [updateFirst, hx] using h) with rfl | hmem
      · exact Or.inl (List.mem_cons_self a xs)
      · rcases mem_updateFirst hmem with h1 | ⟨b, hb, hpb, rfl⟩
        · exact Or.inl (List.mem_cons_of_mem x h1)
        · exact Or.inr ⟨b, List.mem_cons_of_mem x hb, hpb, rfl⟩

/-- The document `find?` locates is the one `updateFirst` rewrites. -/
theorem find?_updateFirst_mem {p : α → Bool} {f : α → α} {a : α} :
    ∀ {l : List α}, l.find? p = some a → f a ∈ updateFirst p f l
  | [], h => by cases h
  | x :: xs, h => by
    by_cases hx : p x
    · rw [List.find?_cons_of_pos _ hx] at h
      cases h
      simp [updateFirst, hx]
    · rw [List.find?_cons_of_neg _ hx] at h
      simp only [updateFirst, if_neg hx, List.mem_cons]
      exact Or.inr (find?_updateFirst_mem h)

/-- An element rejected by the filter survives `eraseP`. -/
theorem mem_eraseP_of_neg {p : α → Bool} {a : α} (hpa : p a = false) :
    ∀ {l : List α}, a ∈ l → a ∈ l.eraseP p
  | [], h => by cases h
  | x :: xs, h => by
    rcases List.mem_cons.mp h with rfl | hmem
    · simp [List.eraseP_cons, hpa]
    · by_cases hx : p x
      · simp [List.eraseP_cons, hx, hmem]
      · simp only [List.eraseP_cons, hx, cond_false, List.mem_cons]
        exact Or.inr (mem_eraseP_of_neg hpa hmem)

/-- `applyTaskUpdates` grows the history by exactly one entry per update. -/
theorem applyTaskUpdates_history_length (bs : List (TaskUpdate × Int)) :
    ∀ t : Task, (applyTaskUpdates t bs).history.length =
      t.history.length + bs.length := by
  induction bs with
  | nil => intro t; simp [applyTaskUpdates]
  | cons b bs ih =>
      intro t
      show (applyTaskUpdates (applyTaskUpdate b.1 b.2 t) bs).history.length = _
      rw [ih]
      simp only [applyTaskUpdate, List.length_append, List.length_cons,
        List.length_nil, List.length_singleton]
      omega

/-- The truthy-credentials guard, spelled out. -/
theorem configCredsPresent_iff {s : AppState} {caller : Nat} :
    configCredsPresent s caller = true ↔
      ∃ c, findConfig s caller = some c ∧ c.botToken ≠ "" ∧ c.chatId ≠ "" := by
  unfold configCredsPresent
  cases h : findConfig s caller <;> simp [h, bne_iff_ne]

/-! Claim theorems. -/

/-- Claim C9: Employee Create and Task Create persist the caller as owner and
(for tasks) an empty history for every request body — including bodies that
submit their own userId or history values — because the handlers write their
own keys after spreading the body, and later object keys win. -/
theorem create_forces_owner (s : AppState) (caller newId : Nat)
    (be : EmployeeBody) (bt : TaskBody) (now : Int) (o : TgOutcome) :
    (createEmployee s caller be newId now).2.1.userId = caller ∧
    (createEmployee s caller be newId now).2.1 ∈
      (createEmployee s caller be newId now).2.2.employees ∧
    (createTask s caller bt newId now o).task.userId = caller ∧
    (createTask s caller bt newId now o).task.history = [] ∧
    (createTask s caller bt newId now o).task ∈
      (createTask s caller bt newId now o).state.tasks := by
  refine ⟨rfl, ?_, ?_, ?_, ?_⟩
  · simp [createEmployee]
  all_goals
    unfold createTask
    by_cases h : configCredsPresent s caller
    · by_cases h2 : (s.employees.find? (fun e => e.id == bt.employeeId)).isSome <;>
        simp [h, h2]
    · simp [h]

/-- Claim C8: the notification helper is a total function into structured
results — success flag plus, on failure, the remote payload description when
it is truthy and the transport message otherwise — and the HTTP status of
task Create and Update does not depend on the outcome of the outbound call:
a failed send never escalates the response. (The 500 these handlers can
answer arises from the null-assignee dereference before any send, and it
occurs for every transport outcome alike.) -/
theorem notification_isolated :
    (∀ o, (sendTelegramNotification o).success = true ↔ o = TgOutcome.ok) ∧
    (∀ d m, sendTelegramNotification (TgOutcome.failure (some d) m) =
      ⟨false, some (if d == "" then m else d)⟩) ∧
    (∀ m, sendTelegramNotification (TgOutcome.failure none m) =
      ⟨false, some m⟩) ∧
    (∀ s caller b newId now o o2,
      (createTask s caller b newId now o).status =
        (createTask s caller b newId now o2).status) ∧
    (∀ s caller id b now o o2,
      (updateTask s caller id b now o).status =
        (updateTask s caller id b now o2).status) := by
  refine ⟨?_, fun d m => rfl, fun m => rfl, ?_, ?_⟩
  · intro o; cases o <;> simp [sendTelegramNotification]
  · intro s caller b newId now o o2
    unfold createTask
    by_cases h : configCredsPresent s caller
    · by_cases h2 : (s.employees.find? (fun e => e.id == b.employeeId)).isSome <;>
        simp [h, h2]
    · simp [h]
  · intro s caller id b now o o2
    unfold updateTask
    cases h : s.tasks.find? (fun t => t.id == id && t.userId == caller) with
    | none => rfl
    | some t0 =>
        by_cases h1 : (b.status == some "completed" && t0.status != "completed")
        · by_cases h2 : configCredsPresent s caller
          · by_cases h3 : (s.employees.find?
                (fun e => e.id == (applyTaskUpdate b now t0).employeeId)).isSome <;>
              simp [h1, h2, h3]
          · simp [h1, h2]
        · simp [h1]

/-- Claim C7: Stats counts, over exactly the caller's task set at the request
instant, the total, the tasks in each status, and as overdue the tasks not
completed whose deadline is strictly before now; a caller-owned past-deadline
task contributes one to overdue while its status is new and nothing once its
status is completed. -/
theorem stats_counts (s : AppState) (caller : Nat) (now : Int) (t : Task)
    (hmine : t.userId = caller) (hpast : t.deadline < now) :
    (getStats s caller now).total =
      s.tasks.countP (fun u => u.userId == caller) ∧
    (getStats s caller now).new =
      s.tasks.countP (fun u => u.status == "new" && u.userId == caller) ∧
    (getStats s caller now).inProgress =
      s.tasks.countP (fun u => u.status == "in_progress" && u.userId == caller) ∧
    (getStats s caller now).completed =
      s.tasks.countP (fun u => u.status == "completed" && u.userId == caller) ∧
    (getStats s caller now).overdue =
      s.tasks.countP (fun u =>
        (u.status != "completed" && decide (u.deadline < now)) && u.userId == caller) ∧
    (t.status = "new" →
      (getStats { s with tasks := t :: s.tasks } caller now).overdue =
        (getStats s caller now).overdue + 1) ∧
    (t.status = "completed" →
      (getStats { s with tasks := t :: s.tasks } caller now).overdue =
        (getStats s caller now).overdue) := by
  have hb : (t.userId == caller) = true := by simp [hmine]
  refine ⟨?_, ?_, ?_, ?_, ?_, ?_, ?_⟩
  · simp [getStats, ← List.countP_eq_length_filter]
  · simp [getStats, ← List.countP_eq_length_filter, List.countP_filter]
  · simp [getStats, ← List.countP_eq_length_filter, List.countP_filter]
  · simp [getStats, ← List.countP_eq_length_filter, List.countP_filter]
  · simp [getStats, ← List.countP_eq_length_filter, List.countP_filter]
  · intro hst
    simp [getStats, List.filter_cons, hb, hst, hpast]
  · intro hst
    simp [getStats, List.filter_cons, hb, hst]

/-- Witness for C7 at a concrete state: task 20 (owner 1, deadline 100,
status new) is overdue at instant 200 and stops counting once completed. -/
theorem stats_counts_witness :
    (getStats { exState with tasks := exTask20 :: exState.tasks } 1 200).overdue =
      (getStats exState 1 200).overdue + 1 ∧
    (getStats exState 1 200).total =
      exState.tasks.countP (fun u => u.userId == 1) := by
  have h := stats_counts exState 1 200 exTask20 (by decide) (by decide)
  exact ⟨h.2.2.2.2.2.1 (by decide), h.1⟩

/-- Registration with an email some stored user already holds answers 400
Conflict and leaves the state unchanged. -/
theorem register_conflict_of_email_taken {s : AppState} {email : String}
    (pw nm : String) (hash : String → String) (newId : Nat) (now : Int)
    (h : ∃ u ∈ s.users, u.email = email) :
    register s email pw nm hash newId now =
      (.conflict 400 "Email уже зарегистрирован", s) := by
  obtain ⟨u, hu, he⟩ := h
  have hs : (s.users.find? (fun v => v.email == email)).isSome :=
    List.find?_isSome.mpr ⟨u, hu, by simp [he]⟩
  obtain ⟨v, hv⟩ := Option.isSome_iff_exists.mp hs
  simp [register, hv]

/-- Claim C5: Register answers Conflict exactly when the email is taken — so
registering the same email twice always fails the second call — and
otherwise persists a user carrying the hash of the password and the default
role manager, answering 201 with a 30-day token whose payload is the new
owner id and a public view of id, email, name and role; the stored password
hash is not part of the view (`RegisterResult.created` carries no password
component at all). -/
theorem register_spec (s : AppState) (email pw nm pw2 nm2 : String)
    (hash hash2 : String → String) (newId newId2 : Nat) (now now2 : Int) :
    ((∃ u ∈ s.users, u.email = email) →
      register s email pw nm hash newId now =
        (.conflict 400 "Email уже зарегистрирован", s)) ∧
    ((∀ u ∈ s.users, u.email ≠ email) →
      register s email pw nm hash newId now =
        (.created 201 newId 30 newId email nm "manager",
         { s with users := s.users ++
            [⟨newId, email, hash pw, nm, "manager", now⟩] })) ∧
    ((∀ u ∈ s.users, u.email ≠ email) →
      (register (register s email pw nm hash newId now).2
          email pw2 nm2 hash2 newId2 now2).1 =
        .conflict 400 "Email уже зарегистрирован") := by
  refine ⟨register_conflict_of_email_taken pw nm hash newId now, ?_, ?_⟩
  · intro h
    have hf : s.users.find? (fun v => v.email == email) = none :=
      List.find?_eq_none.mpr (fun u hu => by simp [h u hu])
    simp [register, hf]
  · intro h
    have hf : s.users.find? (fun v => v.email == email) = none :=
      List.find?_eq_none.mpr (fun u hu => by simp [h u hu])
    have h2 : (register s email pw nm hash newId now).2 =
        { s with users := s.users ++
            [⟨newId, email, hash pw, nm, "manager", now⟩] } := by
      simp [register, hf]
    rw [h2]
    have hmem : (⟨newId, email, hash pw, nm, "manager", now⟩ : User) ∈
        s.users ++ [⟨newId, email, hash pw, nm, "manager", now⟩] :=
      List.mem_append_right _ (List.mem_singleton.mpr rfl)
    rw [register_conflict_of_email_taken pw2 nm2 hash2 newId2 now2
      ⟨⟨newId, email, hash pw, nm, "manager", now⟩, hmem, rfl⟩]

/-- Witness for C5 at concrete inputs: a fresh email registers with role
manager and a 30-day token for the new id, and a second registration of the
same email fails with Conflict. -/
theorem register_spec_witness :
    register exState "c@example.com" "pw" "Carol"
        (fun p => String.append p "#h") 3 7 =
      (.created 201 3 30 3 "c@example.com" "Carol" "manager",
       { exState with users := exState.users ++
          [⟨3, "c@example.com", "pw#h", "Carol", "manager", 7⟩] }) ∧
    (register (register exState "c@example.com" "pw" "Carol"
          (fun p => String.append p "#h") 3 7).2
        "c@example.com" "pw2" "Carl" (fun p => String.append p "#h") 4 8).1 =
      .conflict 400 "Email уже зарегистрирован" := by
  have h := register_spec exState "c@example.com" "pw" "Carol" "pw2" "Carl"
    (fun p => String.append p "#h") (fun p => String.append p "#h") 3 4 7 8
  exact ⟨h.2.1 (by decide), h.2.2 (by decide)⟩

/-- Claim C6: Login answers 401 with one and the same generic message whether
the email is unknown or the hash comparison fails — the two failures are
indistinguishable — and on success returns a fresh 30-day token for the user
id with the same id/email/name/role view shape Register returns. -/
theorem login_spec (s : AppState) (email pw : String)
    (verify : String → String → Bool) (u : User) :
    (s.users.find? (fun v => v.email == email) = none →
      login s email pw verify = .unauthorized 401 "Неверный email или пароль") ∧
    (s.users.find? (fun v => v.email == email) = some u →
      verify pw u.password = false →
      login s email pw verify = .unauthorized 401 "Неверный email или пароль") ∧
    (s.users.find? (fun v => v.email == email) = some u →
      verify pw u.password = true →
      login s email pw verify = .ok u.id 30 u.id u.email u.name u.role) := by
  refine ⟨fun hf => by simp [login, hf], ?_, ?_⟩
  · intro hf hv
    simp [login, hf, hv]
  · intro hf hv
    simp [login, hf, hv]

/-- Witness for C6 at concrete inputs: unknown email and wrong password both
yield the identical 401 response; the right password logs in. -/
theorem login_spec_witness :
    login exState "zz@example.com" "x" (fun a b => a == b) =
      .unauthorized 401 "Неверный email или пароль" ∧
    login exState "a@example.com" "wrong" (fun a b => a == b) =
      .unauthorized 401 "Неверный email или пароль" ∧
    login exState "a@example.com" "hashA" (fun a b => a == b) =
      .ok 1 30 1 "a@example.com" "Alice" "manager" := by
  refine ⟨(login_spec exState "zz@example.com" "x" (fun a b => a == b)
      exUser1).1 (by decide),
    (login_spec exState "a@example.com" "wrong" (fun a b => a == b)
      exUser1).2.1 (by decide) (by decide), ?_⟩
  have h := (login_spec exState "a@example.com" "hashA" (fun a b => a == b)
    exUser1).2.2 (by decide) (by decide)
  simpa [exUser1] using h

/-- A successful task update stores the merge of the matched document. -/
theorem updateTask_state_tasks {s : AppState} {caller id : Nat}
    (b : TaskUpdate) (now : Int) (o : TgOutcome) {t0 : Task}
    (hfound : s.tasks.find? (fun t => t.id == id && t.userId == caller) = some t0) :
    (updateTask s caller id b now o).state.tasks =
      updateFirst (fun t => t.id == id && t.userId == caller)
        (applyTaskUpdate b now) s.tasks ∧
    (updateTask s caller id b now o).task = some (applyTaskUpdate b now t0) := by
  unfold updateTask
  rw [hfound]
  by_cases h1 : (b.status == some "completed" && t0.status != "completed")
  · by_cases h2 : configCredsPresent s caller
    · by_cases h3 : (s.employees.find?
          (fun e => e.id == (applyTaskUpdate b now t0).employeeId)).isSome <;>
        simp [h1, h2, h3]
    · simp [h1, h2]
  · simp [h1]

/-- Claim C2: a created task starts with an empty history; a successful
update returns the matched document extended by exactly one history entry
holding the instant, the fixed label updated, and the submitted body
verbatim; no update or delete ever shortens a surviving task's history; and
folding N successful updates over a freshly created task leaves exactly N
entries. -/
theorem task_history_spec (s : AppState) (caller id newId : Nat)
    (bc : TaskBody) (b : TaskUpdate) (bs : List (TaskUpdate × Int))
    (now : Int) (o : TgOutcome) (t0 : Task)
    (hfound : s.tasks.find? (fun t => t.id == id && t.userId == caller) = some t0) :
    (createTask s caller bc newId now o).task.history = [] ∧
    (updateTask s caller id b now o).task = some (applyTaskUpdate b now t0) ∧
    (applyTaskUpdate b now t0).history =
      t0.history ++ [⟨now, "updated", b⟩] ∧
    (∀ t ∈ (updateTask s caller id b now o).state.tasks,
      ∃ t1 ∈ s.tasks, ∃ rest, t.history = t1.history ++ rest) ∧
    (∀ t ∈ (deleteTask s caller id).2.tasks, t ∈ s.tasks) ∧
    (applyTaskUpdates (createTask s caller bc newId now o).task bs).history.length
      = bs.length := by
  obtain ⟨hstate, htask⟩ := updateTask_state_tasks b now o hfound
  have hhist : (createTask s caller bc newId now o).task.history = [] := by
    unfold createTask
    by_cases h : configCredsPresent s caller
    · by_cases h2 : (s.employees.find? (fun e => e.id == bc.employeeId)).isSome <;>
        simp [h, h2]
    · simp [h]
  refine ⟨hhist, htask, rfl, ?_, ?_, ?_⟩
  · intro t ht
    rw [hstate] at ht
    rcases mem_updateFirst ht with h1 | ⟨t1, ht1, _, rfl⟩
    · exact ⟨t, h1, [], (List.append_nil _).symm⟩
    · exact ⟨t1, ht1, [⟨now, "updated", b⟩], rfl⟩
  · intro t ht
    unfold deleteTask at ht
    cases hf : s.tasks.find? (fun u => u.id == id && u.userId == caller) with
    | none => rw [hf] at ht; exact ht
    | some u => rw [hf] at ht; exact List.mem_of_mem_eraseP ht
  · rw [applyTaskUpdates_history_length, hhist]
    simp

/-- Witness for C2 at a concrete state: task 20 is found for caller 1, the
update appends one entry, and two folded updates leave two entries. -/
theorem task_history_spec_witness :
    (updateTask exState 1 20 exCompleteBody 50 TgOutcome.ok).task =
      some (applyTaskUpdate exCompleteBody 50 exTask20) ∧
    (applyTaskUpdate exCompleteBody 50 exTask20).history =
      exTask20.history ++ [⟨50, "updated", exCompleteBody⟩] ∧
    (applyTaskUpdates
      (createTask exState 1 ⟨"T", none, 10, 100, none, none, none, none, none⟩
        23 0 TgOutcome.ok).task
      [(exCompleteBody, 1), (emptyTaskUpdate, 2)]).history.length = 2 := by
  have h := task_history_spec exState 1 20 23
    ⟨"T", none, 10, 100, none, none, none, none, none⟩ exCompleteBody
    [(exCompleteBody, 1), (emptyTaskUpdate, 2)] 50 TgOutcome.ok exTask20
    (by decide)
  exact ⟨h.2.1, h.2.2.1, h.2.2.2.2.2⟩

/-- Claim C3: on a successful task update (the handler answered 200; this
excludes the 404 miss and the 500 null-assignee crash, on which no attempt is
made either), exactly one completion notification attempt is made precisely
when the submitted status is completed, the matched document's prior status
was not completed, and the caller's config holds a truthy bot token and chat
id; in every other case no attempt is made. -/
theorem completion_notification (s : AppState) (caller id : Nat)
    (b : TaskUpdate) (now : Int) (o : TgOutcome) (t0 : Task)
    (hfound : s.tasks.find? (fun t => t.id == id && t.userId == caller) = some t0)
    (hok : (updateTask s caller id b now o).status = 200) :
    ((updateTask s caller id b now o).notifications = 1 ↔
      (b.status = some "completed" ∧ t0.status ≠ "completed" ∧
        ∃ c, findConfig s caller = some c ∧ c.botToken ≠ "" ∧ c.chatId ≠ "")) ∧
    ((updateTask s caller id b now o).notifications = 0 ↔
      ¬ (b.status = some "completed" ∧ t0.status ≠ "completed" ∧
        ∃ c, findConfig s caller = some c ∧ c.botToken ≠ "" ∧ c.chatId ≠ "")) := by
  have hbool : ((b.status == some "completed" && t0.status != "completed")
      && configCredsPresent s caller) = true ↔
      (b.status = some "completed" ∧ t0.status ≠ "completed" ∧
        ∃ c, findConfig s caller = some c ∧ c.botToken ≠ "" ∧ c.chatId ≠ "") := by
    simp [Bool.and_eq_true, beq_iff_eq, bne_iff_ne, configCredsPresent_iff,
      and_assoc]
  unfold updateTask at hok ⊢
  rw [hfound] at hok ⊢
  by_cases h1 : (b.status == some "completed" && t0.status != "completed")
  · by_cases h2 : configCredsPresent s caller
    · by_cases h3 : (s.employees.find?
          (fun e => e.id == (applyTaskUpdate b now t0).employeeId)).isSome
      · have hp := hbool.mp (by simp [h1, h2])
        simp [h1, h2, h3, hp]
      · simp [h1, h2, h3] at hok
    · have hp := (not_congr hbool).mp (by simp [h2])
      simp [h1, h2, hp]
  · have hp := (not_congr hbool).mp (by simp [h1])
    simp [h1, hp]

/-- Witness for C3 at a concrete state: moving task 20 (status new, caller
with full credentials, assignee resolvable) to completed makes exactly one
attempt; an update without a status change makes none. -/
theorem completion_notification_witness :
    (updateTask exState 1 20 exCompleteBody 50 TgOutcome.ok).notifications = 1 ∧
    (updateTask exState 1 20 emptyTaskUpdate 50 TgOutcome.ok).notifications = 0 := by
  have h1 := (completion_notification exState 1 20 exCompleteBody 50
    TgOutcome.ok exTask20 (by decide) (by decide)).1
  have h2 := (completion_notification exState 1 20 emptyTaskUpdate 50
    TgOutcome.ok exTask20 (by decide) (by decide)).2
  refine ⟨h1.mpr ⟨rfl, by decide, exCfg1, by decide, by decide, by decide⟩, ?_⟩
  exact h2.mpr (fun hp => by simp [emptyTaskUpdate] at hp)

/-- Claim C4: deleting an employee answers 400 Conflict whenever the caller
owns a task referencing it; with no such task it succeeds whenever the caller
owns a matching employee, and answers 404 NotFound when no employee matches
the id under the caller's ownership. -/
theorem employee_delete_spec (s : AppState) (caller id : Nat)
    (t : Task) (e : Employee) :
    (t ∈ s.tasks → t.userId = caller → t.employeeId = id →
      deleteEmployee s caller id =
        (.conflict 400 "Нельзя удалить сотрудника с активными задачами", s)) ∧
    ((∀ u ∈ s.tasks, ¬ (u.userId = caller ∧ u.employeeId = id)) →
      e ∈ s.employees → e.id = id → e.userId = caller →
      (deleteEmployee s caller id).1 = .deleted 200 "Сотрудник удалён") ∧
    ((∀ u ∈ s.tasks, ¬ (u.userId = caller ∧ u.employeeId = id)) →
      (∀ e2 ∈ s.employees, ¬ (e2.id = id ∧ e2.userId = caller)) →
      deleteEmployee s caller id = (.notFound 404 "Сотрудник не найден", s)) := by
  refine ⟨?_, ?_, ?_⟩
  · intro ht h1 h2
    have hmem : t ∈ s.tasks.filter
        (fun u => u.userId == caller && u.employeeId == id) :=
      List.mem_filter.mpr ⟨ht, by simp [h1, h2]⟩
    have hlen : 0 < (s.tasks.filter
        (fun u => u.userId == caller && u.employeeId == id)).length :=
      List.length_pos.mpr (List.ne_nil_of_mem hmem)
    simp only [deleteEmployee, gt_iff_lt, hlen, if_true]
  · intro hno he h1 h2
    have hflt : s.tasks.filter
        (fun u => u.userId == caller && u.employeeId == id) = [] :=
      List.filter_eq_nil_iff.mpr (fun u hu => by simpa using hno u hu)
    have hs : (s.employees.find?
        (fun e2 => e2.id == id && e2.userId == caller)).isSome :=
      List.find?_isSome.mpr ⟨e, he, by simp [h1, h2]⟩
    obtain ⟨v, hv⟩ := Option.isSome_iff_exists.mp hs
    simp [deleteEmployee, hflt, hv]
  · intro hno hnoe
    have hflt : s.tasks.filter
        (fun u => u.userId == caller && u.employeeId == id) = [] :=
      List.filter_eq_nil_iff.mpr (fun u hu => by simpa using hno u hu)
    have hf : s.employees.find?
        (fun e2 => e2.id == id && e2.userId == caller) = none :=
      List.find?_eq_none.mpr (fun e2 he2 => by simpa using hnoe e2 he2)
    simp [deleteEmployee, hflt, hf]

/-- Witness for C4 at concrete states: employee 10 is referenced by task 20
and cannot be deleted; employee 12 has no tasks and deletes; employee 11
belongs to tenant 2 and is NotFound for caller 1. -/
theorem employee_delete_spec_witness :
    deleteEmployee exState 1 10 =
      (.conflict 400 "Нельзя удалить сотрудника с активными задачами", exState) ∧
    (deleteEmployee exState 1 12).1 = .deleted 200 "Сотрудник удалён" ∧
    deleteEmployee exState 1 11 =
      (.notFound 404 "Сотрудник не найден", exState) := by
  refine ⟨(employee_delete_spec exState 1 10 exTask20 exEmp10).1
      (by decide) (by decide) (by decide),
    (employee_delete_spec exState 1 12 exTask20 exEmp12).2.1
      (by decide) (by decide) (by decide) (by decide),
    (employee_delete_spec exState 1 11 exTask20 exEmp10).2.2
      (by decide) (by decide)⟩

/-- Claim C10: the employee and task update handlers merge every submitted
field with no whitelist, the owner field included: when the body submits a
userId, the returned record and the stored record carry that value as owner —
the update can reassign the record to another tenant. -/
theorem update_owner_reassignment (s : AppState) (caller ide idt u : Nat)
    (be : EmployeeUpdate) (bt : TaskUpdate) (now : Int) (o : TgOutcome)
    (e0 : Employee) (t0 : Task)
    (hbe : be.userId = some u) (hbt : bt.userId = some u)
    (hfe : s.employees.find? (fun e => e.id == ide && e.userId == caller) = some e0)
    (hft : s.tasks.find? (fun t => t.id == idt && t.userId == caller) = some t0) :
    (updateEmployee s caller ide be).2.1 = some (applyEmployeeUpdate be e0) ∧
    (applyEmployeeUpdate be e0).userId = u ∧
    applyEmployeeUpdate be e0 ∈ (updateEmployee s caller ide be).2.2.employees ∧
    (updateTask s caller idt bt now o).task = some (applyTaskUpdate bt now t0) ∧
    (applyTaskUpdate bt now t0).userId = u ∧
    applyTaskUpdate bt now t0 ∈ (updateTask s caller idt bt now o).state.tasks := by
  obtain ⟨hstate, htask⟩ :=
    updateTask_state_tasks bt now o hft
  refine ⟨by simp [updateEmployee, hfe], by simp [applyEmployeeUpdate, hbe],
    ?_, htask, by simp [applyTaskUpdate, hbt], ?_⟩
  · have hmem := find?_updateFirst_mem (f := applyEmployeeUpdate be) hfe
    simp only [updateEmployee, hfe]
    exact hmem
  · rw [hstate]
    exact find?_updateFirst_mem (f := applyTaskUpdate bt now) hft

/-- Witness for C10 at a concrete state: caller 1 submits userId 2 for its
employee 10 and its task 20, and both records end up owned by tenant 2. -/
theorem update_owner_reassignment_witness :
    (applyEmployeeUpdate exReassignEmp exEmp10).userId = 2 ∧
    applyEmployeeUpdate exReassignEmp exEmp10 ∈
      (updateEmployee exState 1 10 exReassignEmp).2.2.employees ∧
    (applyTaskUpdate exReassignTask 50 exTask20).userId = 2 ∧
    applyTaskUpdate exReassignTask 50 exTask20 ∈
      (updateTask exState 1 20 exReassignTask 50 TgOutcome.ok).state.tasks := by
  have h := update_owner_reassignment exState 1 10 20 2 exReassignEmp
    exReassignTask 50 TgOutcome.ok exEmp10 exTask20
    (by decide) (by decide) (by decide) (by decide)
  exact ⟨h.2.1, h.2.2.1, h.2.2.2.2.1, h.2.2.2.2.2⟩

/-- Claim C1 as frozen is falsified by the assignee population of Task List:
`populate` resolves the employee reference by id alone, so a List request by
caller 1 returns tenant 2's employee record embedded in a task — a Get/List
operation does return a record whose owner differs from the caller. -/
theorem owner_scoping_counterexample :
    (⟨exCrossTask, some exEmp11⟩ : TaskWithEmployee) ∈ listTasks exCrossState 1 ∧
    exCrossTask.userId = 1 ∧ exEmp11.userId ≠ 1 := by decide

/-- Claim C1 (amended): every record that existed before the request with an
owner different from the caller is never returned as a top-level result of a
List, Get, Update or Delete operation and survives each of those operations
untouched, and what a successful update returns derives from a record owned
by the caller at lookup time — except that the assignee employee embedded by
the task handlers' populate step is resolved by id alone and may therefore
expose another tenant's employee record. -/
theorem owner_scoping (s : AppState) (caller ide idt : Nat)
    (be : EmployeeUpdate) (bt : TaskUpdate) (bc : ConfigBody)
    (now : Int) (o : TgOutcome)
    (e : Employee) (t : Task) (c : Config)
    (he : e ∈ s.employees) (hne : e.userId ≠ caller)
    (ht : t ∈ s.tasks) (hnt : t.userId ≠ caller)
    (hc : c ∈ s.configs) (hnc : c.userId ≠ caller) :
    (∀ e2 ∈ listEmployees s caller, e2.userId = caller) ∧
    (∀ x ∈ listTasks s caller, x.task.userId = caller) ∧
    e ∈ (updateEmployee s caller ide be).2.2.employees ∧
    (∀ r, (updateEmployee s caller ide be).2.1 = some r →
      ∃ e0 ∈ s.employees, e0.userId = caller ∧ r = applyEmployeeUpdate be e0) ∧
    e ∈ (deleteEmployee s caller ide).2.employees ∧
    t ∈ (updateTask s caller idt bt now o).state.tasks ∧
    (∀ r, (updateTask s caller idt bt now o).task = some r →
      ∃ t0 ∈ s.tasks, t0.userId = caller ∧ r = applyTaskUpdate bt now t0) ∧
    t ∈ (deleteTask s caller idt).2.tasks ∧
    (getConfig s caller).1.userId = caller ∧
    c ∈ (getConfig s caller).2.configs ∧
    c ∈ (configUpdate s caller bc).2.configs := by
  have hpe : (e.id == ide && e.userId == caller) = false := by simp [hne]
  have hpt : (t.id == idt && t.userId == caller) = false := by simp [hnt]
  have hpc : (c.userId == caller) = false := by simp [hnc]
  refine ⟨?_, ?_, ?_, ?_, ?_, ?_, ?_, ?_, ?_, ?_, ?_⟩
  · intro e2 h2
    have := mem_sortDesc.mp h2
    have := (List.mem_filter.mp this).2
    simpa using this
  · intro x hx
    obtain ⟨t2, ht2, rfl⟩ := List.mem_map.mp hx
    have := (List.mem_filter.mp (mem_sortDesc.mp ht2)).2
    simpa [populateEmployee] using this
  · unfold updateEmployee
    cases hf : s.employees.find? (fun e2 => e2.id == ide && e2.userId == caller) with
    | none => exact he
    | some e0 =>
        exact mem_updateFirst_of_neg
          (p := fun e2 => e2.id == ide && e2.userId == caller)
          (f := applyEmployeeUpdate be) hpe he
  · intro r hr
    unfold updateEmployee at hr
    cases hf : s.employees.find? (fun e2 => e2.id == ide && e2.userId == caller) with
    | none => rw [hf] at hr; cases hr
    | some e0 =>
        rw [hf] at hr
        have h0 := List.find?_some hf
        refine ⟨e0, List.mem_of_find?_eq_some hf, ?_, ?_⟩
        · simpa using (Bool.and_elim_right h0)
        · simpa using hr.symm
  · unfold deleteEmployee
    by_cases hlen : 0 < (s.tasks.filter
        (fun u => u.userId == caller && u.employeeId == ide)).length
    · simp only [gt_iff_lt, hlen, if_true]
      exact he
    · simp only [gt_iff_lt, hlen, if_false]
      cases hf : s.employees.find?
          (fun e2 => e2.id == ide && e2.userId == caller) with
      | none => exact he
      | some e0 =>
          exact mem_eraseP_of_neg
            (p := fun e2 => e2.id == ide && e2.userId == caller) hpe he
  · cases hf : s.tasks.find? (fun t2 => t2.id == idt && t2.userId == caller) with
    | none =>
        unfold updateTask
        rw [hf]
        exact ht
    | some t0 =>
        rw [(updateTask_state_tasks bt now o hf).1]
        exact mem_updateFirst_of_neg
          (p := fun t2 => t2.id == idt && t2.userId == caller)
          (f := applyTaskUpdate bt now) hpt ht
  · intro r hr
    cases hf : s.tasks.find? (fun t2 => t2.id == idt && t2.userId == caller) with
    | none =>
        unfold updateTask at hr
        rw [hf] at hr
        cases hr
    | some t0 =>
        rw [(updateTask_state_tasks bt now o hf).2] at hr
        have h0 := List.find?_some hf
        refine ⟨t0, List.mem_of_find?_eq_some hf, ?_, ?_⟩
        · simpa using (Bool.and_elim_right h0)
        · exact (Option.some.inj hr).symm
  · unfold deleteTask
    cases hf : s.tasks.find? (fun t2 => t2.id == idt && t2.userId == caller) with
    | none => exact ht
    | some t0 =>
        exact mem_eraseP_of_neg
          (p := fun t2 => t2.id == idt && t2.userId == caller) hpt ht
  · unfold getConfig
    cases hf : findConfig s caller with
    | none => rfl
    | some c0 =>
        have h0 := List.find?_some hf
        simpa using h0
  · unfold getConfig
    cases hf : findConfig s caller with
    | none => exact List.mem_append_left _ hc
    | some c0 => exact hc
  · unfold configUpdate
    cases hf : findConfig s caller with
    | none => exact List.mem_append_left _ hc
    | some c0 =>
        exact mem_updateFirst_of_neg (p := fun c2 => c2.userId == caller)
          (f := fun c2 => { c2 with botToken := bc.botToken, chatId := bc.chatId })
          hpc hc

/-- Witness for the amended C1 at a concrete state: tenant 2's employee,
task and config survive caller 1's operations, and caller 1's config read
stays scoped. -/
theorem owner_scoping_witness :
    exEmp11 ∈ (updateEmployee exState 1 10 emptyEmployeeUpdate).2.2.employees ∧
    exTask21 ∈ (deleteTask exState 1 20).2.tasks ∧
    (getConfig exState 1).1.userId = 1 ∧
    exCfg2 ∈ (configUpdate exState 1 ⟨"tk", "ch", none⟩).2.configs := by
  have h := owner_scoping exState 1 10 20 emptyEmployeeUpdate emptyTaskUpdate
    ⟨"tk", "ch", none⟩ 50 TgOutcome.ok exEmp11 exTask21 exCfg2
    (by decide) (by decide) (by decide) (by decide) (by decide) (by decide)
  exact ⟨h.2.2.1, h.2.2.2.2.2.2.2.1, h.2.2.2.2.2.2.2.2.1,
    h.2.2.2.2.2.2.2.2.2.2⟩

end TaskFlow
